import Mathlib

/-!
# z2api-go: verification of the streaming translation engine

Shallow embedding of the core of the `z2api-go` protocol-translation
gateway: the phase-transition content rewriter (`FormatResponse`), the
tool-call reconstructor from the Anthropic messages handler, the request
normalizer (`FormatRequest`) and the two-level HMAC signature generator
(`GenerateSignature`).  Each definition is translated from the Go source;
the few `regexp` patterns the source uses are fixed concrete expressions,
so each is embedded as a dedicated scanning function with the same match
semantics (leftmost match, lazy or greedy exactly as written,
non-overlapping global replacement over the original string).
-/

set_option maxRecDepth 8000

namespace Z2

/-! ## String primitives

All scanning works over `List Char`; `String` wrappers sit at the API
boundary.  Go strings are UTF-8 byte strings; all comparisons and
orderings the sources perform are on ASCII data where byte order and
code-point order agree, so `Char`-level modelling is faithful.
-/

/-- Test that `pat` is a prefix of `s`. -/
def beginsWith : List Char → List Char → Bool
  | [], _ => true
  | _ :: _, [] => false
  | c :: cs, d :: ds => c == d && beginsWith cs ds

/-- Split at the leftmost occurrence of `pat`: `some (pre, post)` with
`s = pre ++ pat ++ post`, `pat` not occurring in `pre ++ pat` any
earlier.  `none` when `pat` does not occur. -/
def splitFirst (pat : List Char) : List Char → Option (List Char × List Char)
  | [] => if beginsWith pat [] then some ([], []) else none
  | c :: cs =>
    if beginsWith pat (c :: cs) then some ([], (c :: cs).drop pat.length)
    else
      match splitFirst pat cs with
      | some (pre, post) => some (c :: pre, post)
      | none => none

/-- Split at the rightmost occurrence of `pat` (fuel-bounded recursion on
successive occurrences; `fuel ≥ s.length` suffices for nonempty `pat`). -/
def splitLastAux (pat : List Char) : Nat → List Char → Option (List Char × List Char)
  | 0, _ => none
  | fuel + 1, s =>
    match splitFirst pat s with
    | none => none
    | some (pre, post) =>
      match splitLastAux pat fuel post with
      | none => some (pre, post)
      | some (pre2, post2) => some (pre ++ pat ++ pre2, post2)

/-- Split at the rightmost occurrence of `pat`. -/
def splitLast (pat s : List Char) : Option (List Char × List Char) :=
  splitLastAux pat (s.length + 1) s

/-- Go `strings.Contains`. -/
def goContains (s sub : String) : Bool :=
  (splitFirst sub.data s.data).isSome

/-- Length of the run of `'\n'` characters at the head of `s`. -/
def nlCount : List Char → Nat
  | [] => 0
  | c :: cs => if c == '\n' then nlCount cs + 1 else 0

/-- Generic global replacement: scan left to right; wherever `matchAt`
recognizes a match starting at the current position it returns the
suffix after the match, the match is replaced by `repl` and scanning
resumes at that suffix (non-overlapping matches, exactly Go's
`ReplaceAllString`).  Every matcher used below consumes at least one
character, so `fuel = s.length + 1` suffices. -/
def replaceScan (matchAt : List Char → Option (List Char)) (repl : List Char) :
    Nat → List Char → List Char
  | 0, s => s
  | _ + 1, [] => []
  | fuel + 1, c :: cs =>
    match matchAt (c :: cs) with
    | some rest => repl ++ replaceScan matchAt repl fuel rest
    | none => c :: replaceScan matchAt repl fuel cs

/-- Literal (non-regex) matcher for a nonempty pattern. -/
def mLit (pat : List Char) (s : List Char) : Option (List Char) :=
  if !pat.isEmpty && beginsWith pat s then some (s.drop pat.length) else none

/-- Go `strings.ReplaceAll s pat repl` (and `regexp` replacement of a
pattern that is a plain literal). -/
def goReplaceLit (pat repl s : String) : String :=
  ⟨replaceScan (mLit pat.data) repl.data (s.data.length + 1) s.data⟩

/-- Global replacement by a bespoke matcher, at the `String` level. -/
def goReplaceRe (matchAt : List Char → Option (List Char)) (repl s : String) : String :=
  ⟨replaceScan matchAt repl.data (s.data.length + 1) s.data⟩

/-! ## The matchers for the patterns of `FormatResponse`
(src/unnamed/part_004, a Go file of package `services`). -/

/-- Matcher for `(?s)<details[^>]*?>.*?</details>`: the literal
`<details`, the first `>` after it, then the first `</details>` after
that (lazy quantifiers; `(?s)` lets `.` cross newlines). -/
def mDetailsBlock (s : List Char) : Option (List Char) :=
  if beginsWith "<details".data s then
    match splitFirst ['>'] (s.drop 8) with
    | some (_, afterGt) =>
      match splitFirst "</details>".data afterGt with
      | some (_, rest) => some rest
      | none => none
    | none => none
  else none

/-- Matcher for `\n*<summary>.*?</summary>\n*` (no `(?s)`: `.` does not
match a newline, so the block must close on the same line). -/
def mSummaryLine (s : List Char) : Option (List Char) :=
  let t := s.drop (nlCount s)
  if beginsWith "<summary>".data t then
    match splitFirst "</summary>".data (t.drop 9) with
    | some (mid, rest) =>
      if mid.contains '\n' then none
      else some (rest.drop (nlCount rest))
    | none => none
  else none

/-- Matcher for `<details[^>]*>\n*`. -/
def mDetailsOpen (s : List Char) : Option (List Char) :=
  if beginsWith "<details".data s then
    match splitFirst ['>'] (s.drop 8) with
    | some (_, afterGt) => some (afterGt.drop (nlCount afterGt))
    | none => none
  else none

/-- Matcher for `\n*</details>`. -/
def mDetailsClose (s : List Char) : Option (List Char) :=
  let t := s.drop (nlCount s)
  if beginsWith "</details>".data t then some (t.drop 10) else none

/-- RE2's `\s`: space, tab, newline, form feed, carriage return. -/
def isRe2Space (c : Char) : Bool :=
  c == ' ' || c == '\t' || c == '\n' || c == '\x0c' || c == '\r'

/-- Matcher for `\n>\s?` (`\s?` is greedy: it consumes a following
whitespace character when present). -/
def mBlockquote : List Char → Option (List Char)
  | '\n' :: '>' :: c :: rest =>
    if isRe2Space c then some rest else some (c :: rest)
  | '\n' :: '>' :: [] => some []
  | _ => none

/-- Matcher for `<reasoning>\n*`. -/
def mReasoningOpen (s : List Char) : Option (List Char) :=
  if beginsWith "<reasoning>".data s then
    let t := s.drop 11
    some (t.drop (nlCount t))
  else none

/-- Matcher for `\n*</reasoning>`. -/
def mReasoningCloseNl (s : List Char) : Option (List Char) :=
  let t := s.drop (nlCount s)
  if beginsWith "</reasoning>".data t then some (t.drop 12) else none

/-- The metadata envelope literal of the `tool_call` opening pattern. -/
def glmMetaLit : List Char :=
  "\x7b\"type\": \"mcp\", \"data\": \x7b\"metadata\": \x7b".data

/-- Matcher for
`\n*<glm_block[^>]*>\{"type": "mcp", "data": \{"metadata": \{`. -/
def mGlmOpen (s : List Char) : Option (List Char) :=
  let t := s.drop (nlCount s)
  if beginsWith "<glm_block".data t then
    match splitFirst ['>'] (t.drop 10) with
    | some (_, afterGt) =>
      if beginsWith glmMetaLit afterGt then some (afterGt.drop glmMetaLit.length)
      else none
    | none => none
  else none

/-- Matcher for `", "result": "".*</glm_block>` (no `(?s)`, greedy `.*`:
the rightmost `</glm_block>` on the same line). -/
def mGlmResult (s : List Char) : Option (List Char) :=
  let pat := "\", \"result\": \"\"".data
  if beginsWith pat s then
    let u := s.drop pat.length
    let line := u.takeWhile (fun c => c != '\n')
    match splitLast "</glm_block>".data line with
    | some (_, post) => some (post ++ u.drop line.length)
    | none => none
  else none

/-- Matcher for `null, "display_result": "".*</glm_block>` (greedy). -/
def mGlmDisplay (s : List Char) : Option (List Char) :=
  let pat := "null, \"display_result\": \"\"".data
  if beginsWith pat s then
    let u := s.drop pat.length
    let line := u.takeWhile (fun c => c != '\n')
    match splitLast "</glm_block>".data line with
    | some (_, post) => some (post ++ u.drop line.length)
    | none => none
  else none

/-! ## The Phase Transformer (`FormatResponse`) -/

/-- Whitespace set of Go's `strings.TrimSpace` (`unicode.IsSpace`) on the
Latin-1 range: `\t \n \v \f \r` space, NEL and NBSP. -/
def isGoSpace (c : Char) : Bool :=
  c == ' ' || c == '\t' || c == '\n' || c == '\x0b' || c == '\x0c' ||
  c == '\r' || c == '\x85' || c == '\xa0'

/-- Go `strings.TrimSpace`. -/
def goTrimSpace (s : String) : String :=
  ⟨((s.data.dropWhile isGoSpace).reverse.dropWhile isGoSpace).reverse⟩

/-- Go `strings.TrimLeft s "\n"`. -/
def trimLeftNl (s : String) : String :=
  ⟨s.data.dropWhile (fun c => c == '\n')⟩

/-- Lines 88–99 of `FormatResponse`: strip whole `<details>…</details>`
blocks, the `</thinking>`, `<Full>`, `</Full>` tags, for a `thinking`
phase also single-line `<summary>` blocks (replaced by a blank line),
then rewrite a remaining `<details…>` opening to `<reasoning>` and
`</details>` to `</reasoning>`, normalizing the surrounding newlines. -/
def normalizeTags (phase : String) (s : String) : String :=
  let s := goReplaceRe mDetailsBlock "" s
  let s := goReplaceLit "</thinking>" "" s
  let s := goReplaceLit "<Full>" "" s
  let s := goReplaceLit "</Full>" "" s
  let s := if phase == "thinking" then goReplaceRe mSummaryLine "\n\n" s else s
  let s := goReplaceRe mDetailsOpen "<reasoning>\n\n" s
  goReplaceRe mDetailsClose "\n\n</reasoning>" s

/-- Lines 101–123 of `FormatResponse`: the `answer`-phase rewrite around
the first `</reasoning>` close marker.  `(?s)^(.*?</reasoning>)(.*)$`
splits at the first close; with non-whitespace text after it the whole
content is replaced according to the previous phase, otherwise by
`"\n\n</reasoning>"`.  When the close does not occur the content is
unchanged. -/
def answerCloseRewrite (phaseBak : String) (s : String) : String :=
  match splitFirst "</reasoning>".data s.data with
  | some (_, post) =>
    if goTrimSpace ⟨post⟩ != "" then
      if phaseBak == "thinking" then "\n\n</reasoning>\n\n" ++ trimLeftNl ⟨post⟩
      else if phaseBak == "answer" then ""
      else s
    else "\n\n</reasoning>"
  | none => s

/-- The pattern `(?s)<summary>.*?</summary>` as `FindString`: the first summary block
(the dot crosses newlines here). -/
def findSummaryBlock (s : String) : Option String :=
  match splitFirst "<summary>".data s.data with
  | some (_, t) =>
    match splitFirst "</summary>".data t with
    | some (mid, _) => some ⟨"<summary>".data ++ mid ++ "</summary>".data⟩
    | none => none
  | none => none

/-- The pattern `duration="(\d+)"` as `FindStringSubmatch`: the digits of the first
complete occurrence (maximal digit run immediately closed by `"`). -/
def findDurationAux : Nat → List Char → Option (List Char)
  | 0, _ => none
  | _ + 1, [] => none
  | fuel + 1, c :: cs =>
    let s := c :: cs
    let pat := "duration=\"".data
    if beginsWith pat s then
      let t := s.drop pat.length
      let ds := t.takeWhile Char.isDigit
      if !ds.isEmpty && beginsWith ['"'] (t.drop ds.length) then some ds
      else findDurationAux fuel cs
    else findDurationAux fuel cs

/-- The pattern `duration="(\d+)"` at the `String` level. -/
def findDuration (s : String) : Option String :=
  (findDurationAux (s.data.length + 1) s.data).map fun ds => ⟨ds⟩

/-- Strip leading `> ` blockquote markers: `\n>\s?` replaced by `\n`. -/
def stripBlockquotes (s : String) : String :=
  goReplaceRe mBlockquote "\n" s

/-- Lines 148–178 of `FormatResponse`: the `details` think-mode rewrite.
The opening tag becomes `<details type="reasoning" open><div>`; for an
`answer` phase the content before the first close is searched for a
`<summary>` block (repeated verbatim) or a `duration="N"` attribute
(synthesized into `<summary>Thought for N seconds</summary>`), and the
close becomes `</div>` + that trailer + `</details>`. -/
def detailsModeRewrite (phase : String) (s : String) : String :=
  let s := if phase == "thinking" then stripBlockquotes s else s
  let s := goReplaceLit "<reasoning>" "<details type=\"reasoning\" open><div>" s
  let thoughts :=
    if phase == "answer" then
      let before : String :=
        match splitFirst "</reasoning>".data s.data with
        | some (pre, _) => ⟨pre ++ "</reasoning>".data⟩
        | none => ""
      match findSummaryBlock before with
      | some sm => "\n\n" ++ sm
      | none =>
        match findDuration before with
        | some ds => "\n\n<summary>Thought for " ++ ds ++ " seconds</summary>"
        | none => ""
    else ""
  goReplaceLit "</reasoning>" ("</div>" ++ thoughts ++ "</details>") s

/-- Lines 126–182 of `FormatResponse`: the mode-specific rewrite, a
switch on the configured think mode. -/
def modeRewrite (mode phase : String) (s : String) : String :=
  if mode == "reasoning" then
    let s := if phase == "thinking" then stripBlockquotes s else s
    let s := goReplaceRe mSummaryLine "" s
    let s := goReplaceRe mReasoningOpen "" s
    goReplaceRe mReasoningCloseNl "" s
  else if mode == "think" then
    let s := if phase == "thinking" then stripBlockquotes s else s
    let s := goReplaceRe mSummaryLine "" s
    let s := goReplaceLit "<reasoning>" "<think>" s
    goReplaceLit "</reasoning>" "</think>" s
  else if mode == "strip" then
    let s := goReplaceRe mSummaryLine "" s
    let s := goReplaceRe mReasoningOpen "" s
    goReplaceLit "</reasoning>" "" s
  else if mode == "details" then
    detailsModeRewrite phase s
  else
    goReplaceLit "</reasoning>" "</reasoning>\n\n" s

/-- Lines 74–75 of `FormatResponse`: strip the `glm_block` wrapper of a
`tool_call` event (metadata envelope opening, then the result field and
block close). -/
def toolCallStrip (s : String) : String :=
  goReplaceRe mGlmResult "" (goReplaceRe mGlmOpen "\x7b" s)

/-- Line 78 of `FormatResponse`: strip for an `other` event reclassified
as a truncated `tool_call` (the display-result tail becomes `"}`). -/
def toolCallStripOther (s : String) : String :=
  goReplaceRe mGlmDisplay "\"\x7d" s

/-- The `data` object of one upstream SSE event. -/
structure ZaiData where
  phase : String
  deltaContent : String
  editContent : String
  done : Bool
deriving DecidableEq, Repr

/-- The normalized delta `FormatResponse` emits: its three non-nil return
shapes (the `responseType` argument only selects the key names of the
returned map and is abstracted away). -/
inductive Delta where
  | reasoningText (text : String)
  | answerText (text : String)
  | toolCallFragment (text : String)
deriving DecidableEq, Repr

/-- The source's `FormatResponse` (src/unnamed/part_004 lines 52–221) with the
process-global `phaseBak` passed and returned explicitly: given the
configured think mode, the stored previous phase and one upstream event,
produce the emitted delta (`none` for Go's `nil`) and the new stored
phase.  An event with empty delta and edit content returns `nil` before
the `phaseBak` update statement. -/
def formatResponse (thinkMode phaseBak : String) (d : ZaiData) : Option Delta × String :=
  let phase0 := if d.phase == "" then "other" else d.phase
  let content0 := if d.deltaContent == "" then d.editContent else d.deltaContent
  if content0 == "" then (none, phaseBak)
  else
    let pc :=
      if phase0 == "tool_call" then ("tool_call", toolCallStrip content0)
      else if phase0 == "other" && phaseBak == "tool_call" && goContains content0 "glm_block" then
        ("tool_call", toolCallStripOther content0)
      else (phase0, content0)
    let phase := pc.1
    let content := pc.2
    let content :=
      if phase == "thinking" || (phase == "answer" && goContains content "summary>") then
        let c := normalizeTags phase content
        let c := if phase == "answer" then answerCloseRewrite phaseBak c else c
        modeRewrite thinkMode phase c
      else content
    let out : Option Delta :=
      if phase == "thinking" && thinkMode == "reasoning" then some (.reasoningText content)
      else if phase == "tool_call" then some (.toolCallFragment content)
      else if content != "" then some (.answerText content)
      else none
    (out, phase)

/-! ## JSON values and Go's `encoding/json` parser

The Tool-Call Reconstructor in `src/handlers/messages.go` repeatedly
feeds the accumulated fragment text to `json.Unmarshal` with a
`map[string]interface{}` target.  The parser below follows Go's JSON
grammar: strict number syntax, the standard escapes, no raw control
characters inside strings, insignificant whitespace, and an error on
trailing data. -/

/-- JSON values as decoded into an `interface{}`.  Go decodes numbers to
`float64`; here a number is kept exactly as `mantissa · 10 ^ exp10`,
which agrees with Go on every value the claims touch. -/
inductive Json where
  | null
  | bool (b : Bool)
  | num (mantissa : Int) (exp10 : Int)
  | str (s : String)
  | arr (xs : List Json)
  | obj (fields : List (String × Json))

/-- JSON insignificant whitespace. -/
def isJsonWs (c : Char) : Bool :=
  c == ' ' || c == '\t' || c == '\n' || c == '\r'

/-- Skip insignificant whitespace. -/
def skipWs (s : List Char) : List Char :=
  s.dropWhile isJsonWs

/-- Hex digit value (code points 48–57, 97–102, 65–70). -/
def hexVal (c : Char) : Option Nat :=
  let n := c.toNat
  if 48 ≤ n && n ≤ 57 then some (n - 48)
  else if 97 ≤ n && n ≤ 102 then some (n - 87)
  else if 65 ≤ n && n ≤ 70 then some (n - 55)
  else none

/-- Four hex digits to a code unit. -/
def hex4 (a b c d : Char) : Option Nat := do
  let a ← hexVal a
  let b ← hexVal b
  let c ← hexVal c
  let d ← hexVal d
  pure (((a * 16 + b) * 16 + c) * 16 + d)

/-- Body of a JSON string after the opening quote: the decoded content
and the rest after the closing quote.  Escapes as in Go: the eight
single-character escapes and `\uXXXX` with surrogate pairs combined and
a lone surrogate decoded to U+FFFD; a raw control character or an
unterminated string is an error.  Fuel-bounded structural recursion;
every step consumes at least one character, so `length + 1` fuel
suffices. -/
def parseStringBody : Nat → List Char → Option (List Char × List Char)
  | 0, _ => none
  | fuel + 1, s =>
    match s with
    | [] => none
    | '"' :: rest => some ([], rest)
    | '\\' :: 'u' :: a :: b :: c :: d :: rest => do
      let v ← hex4 a b c d
      if 0xD800 ≤ v && v ≤ 0xDBFF then
        match rest with
        | '\\' :: 'u' :: e :: f :: g :: h :: rest2 => do
          let w ← hex4 e f g h
          if 0xDC00 ≤ w && w ≤ 0xDFFF then
            let (cs, r) ← parseStringBody fuel rest2
            pure (Char.ofNat (0x10000 + (v - 0xD800) * 0x400 + (w - 0xDC00)) :: cs, r)
          else do
            let (cs, r) ← parseStringBody fuel rest
            pure ('\uFFFD' :: cs, r)
        | _ => do
          let (cs, r) ← parseStringBody fuel rest
          pure ('\uFFFD' :: cs, r)
      else if 0xDC00 ≤ v && v ≤ 0xDFFF then do
        let (cs, r) ← parseStringBody fuel rest
        pure ('\uFFFD' :: cs, r)
      else do
        let (cs, r) ← parseStringBody fuel rest
        pure (Char.ofNat v :: cs, r)
    | '\\' :: e :: rest => do
      let c ← match e with
        | '"' => some '"'
        | '\\' => some '\\'
        | '/' => some '/'
        | 'b' => some '\x08'
        | 'f' => some '\x0c'
        | 'n' => some '\n'
        | 'r' => some '\r'
        | 't' => some '\t'
        | _ => none
      let (cs, r) ← parseStringBody fuel rest
      pure (c :: cs, r)
    | c :: rest =>
      if c.toNat < 0x20 then none
      else do
        let (cs, r) ← parseStringBody fuel rest
        pure (c :: cs, r)

/-- Digits to a natural number. -/
def digitsToNat (ds : List Char) : Nat :=
  ds.foldl (fun n c => n * 10 + (c.toNat - '0'.toNat)) 0

/-- A JSON number per Go's strict grammar: optional `-`, an integer part
with no superfluous leading zero, an optional fraction, an optional
exponent.  Returns `(mantissa, exp10, rest)`. -/
def parseNumber (s : List Char) : Option (Int × Int × List Char) := do
  let (neg, s) := match s with
    | '-' :: t => (true, t)
    | t => (false, t)
  let intDs := s.takeWhile Char.isDigit
  if intDs.isEmpty then none
  else if intDs.length > 1 && intDs.headD '0' == '0' then none
  else
    let s := s.drop intDs.length
    let m : Nat := digitsToNat intDs
    let (m, e, s) ← match s with
      | '.' :: t =>
        let fr := t.takeWhile Char.isDigit
        if fr.isEmpty then none
        else some (m * 10 ^ fr.length + digitsToNat fr, -(fr.length : Int), t.drop fr.length)
      | t => some (m, (0 : Int), t)
    let (e, s) ← match s with
      | 'e' :: t | 'E' :: t =>
        let (esign, t) := match t with
          | '+' :: u => ((1 : Int), u)
          | '-' :: u => ((-1 : Int), u)
          | u => ((1 : Int), u)
        let eds := t.takeWhile Char.isDigit
        if eds.isEmpty then none
        else some (e + esign * (digitsToNat eds : Int), t.drop eds.length)
      | t => some (e, t)
    pure (if neg then -(m : Int) else (m : Int), e, s)

mutual

/-- A JSON value (fuel-bounded; each recursive call consumes fuel, and
any successful parse consumes at least one character per level, so
`length + 2` fuel suffices for any parseable input). -/
def parseJsonVal : Nat → List Char → Option (Json × List Char)
  | 0, _ => none
  | fuel + 1, s =>
    match skipWs s with
    | [] => none
    | 'n' :: rest => if beginsWith "ull".data rest then some (.null, rest.drop 3) else none
    | 't' :: rest => if beginsWith "rue".data rest then some (.bool true, rest.drop 3) else none
    | 'f' :: rest => if beginsWith "alse".data rest then some (.bool false, rest.drop 4) else none
    | '"' :: rest =>
      match parseStringBody (rest.length + 1) rest with
      | some (cs, r) => some (.str ⟨cs⟩, r)
      | none => none
    | '[' :: rest =>
      (match skipWs rest with
      | ']' :: r => some (.arr [], r)
      | _ =>
        match parseJsonSeq fuel rest with
        | some (xs, r) => some (.arr xs, r)
        | none => none)
    | '\x7b' :: rest =>
      (match skipWs rest with
      | '\x7d' :: r => some (.obj [], r)
      | _ =>
        match parseJsonFields fuel rest with
        | some (fs, r) => some (.obj fs, r)
        | none => none)
    | s => (parseNumber s).map fun (m, e, r) => (.num m e, r)

/-- Comma-separated array elements up to the closing bracket. -/
def parseJsonSeq : Nat → List Char → Option (List Json × List Char)
  | 0, _ => none
  | fuel + 1, s => do
    let (v, r) ← parseJsonVal fuel s
    match skipWs r with
    | ',' :: r2 => do
      let (xs, r3) ← parseJsonSeq fuel r2
      pure (v :: xs, r3)
    | ']' :: r2 => pure ([v], r2)
    | _ => none

/-- Comma-separated `"key": value` members up to the closing brace. -/
def parseJsonFields : Nat → List Char → Option (List (String × Json) × List Char)
  | 0, _ => none
  | fuel + 1, s => do
    match skipWs s with
    | '"' :: rest => do
      let (k, r) ← parseStringBody (rest.length + 1) rest
      match skipWs r with
      | ':' :: r2 => do
        let (v, r3) ← parseJsonVal fuel r2
        match skipWs r3 with
        | ',' :: r4 => do
          let (fs, r5) ← parseJsonFields fuel r4
          pure ((⟨k⟩, v) :: fs, r5)
        | '\x7d' :: r4 => pure ([(⟨k⟩, v)], r4)
        | _ => none
      | _ => none
    | _ => none

end

/-- Go `json.Unmarshal(text, &m)` for `m : map[string]interface{}`:
the whole text must be one JSON value with nothing but whitespace after
it, and that value must be an object. -/
def goUnmarshalObj (s : String) : Option (List (String × Json)) :=
  match parseJsonVal (s.data.length + 2) s.data with
  | some (v, rest) =>
    if (skipWs rest).isEmpty then
      match v with
      | .obj fs => some fs
      | _ => none
    else none
  | none => none

/-- Lookup in a decoded object with Go map semantics: a repeated key
keeps its last value. -/
def goMapGet (fs : List (String × Json)) (k : String) : Option Json :=
  fs.foldl (fun acc kv => if kv.1 == k then some kv.2 else acc) none

/-! ## The Tool-Call Reconstructor (`AnthropicMessages`, src/handlers/messages.go) -/

/-- The structured tool invocation the handler emits once the
accumulated fragments parse: the `id` and `name` fields as found (Go
reads them as plain `interface{}` values, `nil` when absent) and the
`arguments` string re-parsed as an object (`none` when `arguments` is
not a string or does not parse as an object). -/
structure ToolInvocation where
  id : Option Json
  name : Option Json
  input : Option (List (String × Json))

/-- One completion attempt on the accumulated text (messages.go lines
150–161): parse the whole text as a JSON object; on success re-parse the
`arguments` string into the `input` object and build the invocation. -/
def tryCompleteToolCall (acc : String) : Option ToolInvocation :=
  match goUnmarshalObj acc with
  | none => none
  | some fs =>
    let input :=
      match goMapGet fs "arguments" with
      | some (.str a) => goUnmarshalObj a
      | _ => none
    some ⟨goMapGet fs "id", goMapGet fs "name", input⟩

/-- The tool-call fragment loop of the streaming path (messages.go lines
146–219): each fragment is appended to the accumulation
(`strings.Join(toolCallParts, "")`); when the accumulated text parses,
exactly one invocation is emitted and the loop `break`s, so later
fragments are never consumed. -/
def runToolCalls : List String → String → List ToolInvocation
  | [], _ => []
  | f :: rest, acc =>
    let acc := acc ++ f
    match tryCompleteToolCall acc with
    | some inv => [inv]
    | none => runToolCalls rest acc

/-! ## Go dynamic values and the Request Normalizer (`FormatRequest`,
src/services/request.go lines 21–321) -/

/-- The dynamic (`interface{}`) values `FormatRequest` manipulates.  Go
type assertions distinguish `[]interface{}` (what JSON decoding yields)
from the `[]map[string]interface{}` slices the function itself builds,
so the embedding keeps them as separate constructors (`arr` vs
`mapArr`): an assertion to `[]interface{}` fails on a `mapArr` value
exactly as in Go. -/
inductive GoVal where
  | null
  | bool (b : Bool)
  | num (mantissa : Int) (exp10 : Int)
  | str (s : String)
  | arr (xs : List GoVal)
  | obj (fs : List (String × GoVal))
  | mapArr (ms : List (List (String × GoVal)))

/-- A Go `map[string]interface{}` as an association list (JSON decoding
yields unique keys; `goSet` preserves uniqueness). -/
abbrev GoMap := List (String × GoVal)

/-- Go map read: the binding of `k` or `nil`. -/
def goGet : GoMap → String → Option GoVal
  | [], _ => none
  | (k', v) :: rest, k => if k' == k then some v else goGet rest k

/-- Go map write: replace the binding of `k` in place or append it. -/
def goSet : GoMap → String → GoVal → GoMap
  | [], k, v => [(k, v)]
  | (k', v') :: rest, k, v =>
    if k' == k then (k, v) :: rest else (k', v') :: goSet rest k v

/-- Go `delete(m, k)`. -/
def goDelete (m : GoMap) (k : String) : GoMap :=
  m.filter (fun kv => kv.1 != k)

/-- Go type assertion `.(string)`. -/
def GoVal.asStr : GoVal → Option String
  | .str s => some s
  | _ => none

/-- Go type assertion `.([]interface{})` (fails on `mapArr`). -/
def GoVal.asArr : GoVal → Option (List GoVal)
  | .arr xs => some xs
  | _ => none

/-- Go type assertion `.(map[string]interface{})`. -/
def GoVal.asObj : GoVal → Option GoMap
  | .obj fs => some fs
  | _ => none

/-- One entry of the cached model catalog (`GetModelsService`): the
user-facing `ID` and the upstream `Original` map (`nil` when absent). -/
structure ModelEntry where
  id : String
  original : Option GoMap

/-- The external collaborators and configuration `FormatRequest` reads:
the configured default model, `UploadImage` (its `(url, error)` result
as an `Except`; `ok ""` is the skipped-upload case), `json.Marshal` of
an argument object (a standard-library function, injected so claims
quantify over it), and the model catalog. -/
structure Collab where
  defaultModel : String
  uploadImage : String → String → Except String String
  marshalObj : GoMap → String
  models : List ModelEntry

/-- Lines 43–68: the Anthropic `system` parameter becomes a synthetic
leading system message; a string is newline-left-trimmed, a block list
joins its text items with a blank line; an empty result appends
nothing. -/
def systemMessages (sys : GoVal) : List GoMap :=
  let content :=
    match sys with
    | .str v => trimLeftNl v
    | .arr items =>
      let texts := items.foldl
        (fun acc item =>
          match item with
          | .obj im =>
            match goGet im "type", goGet im "text" with
            | some (.str "text"), some (.str t) => acc ++ [trimLeftNl t]
            | _, _ => acc
          | _ => acc)
        []
      String.intercalate "\n\n" texts
    | _ => ""
  if content != "" then [[("role", .str "system"), ("content", .str content)]] else []

/-- The state of the content-block loop of one message (lines 91–244):
the message under construction, the accumulating `newContent` value
(initially the empty string), the `dontAppend` flag and the separate
`tool`-role messages emitted along the way. -/
structure MsgState where
  newMessage : GoMap
  newContent : GoVal
  dontAppend : Bool
  extra : List GoMap

/-- Lines 134–148, 153–167 and 173–185: convert `newContent` to a block
array if it is still a string, then append a block (Go appends only
when the converted value is a `[]map[string]interface{}`). -/
def pushBlock (newContent : GoVal) (blk : GoMap) : GoVal :=
  let nc :=
    match newContent with
    | .str s => GoVal.mapArr [[("type", .str "text"), ("text", .str s)]]
    | other => other
  match nc with
  | .mapArr xs => .mapArr (xs ++ [blk])
  | other => other

/-- Lines 111–132: the media URL of an image block — the OpenAI
`image_url.url` shape, then the Anthropic base64 `source` shape
(defaulting the media type to `image/jpeg`), the later assignment
winning. -/
def imageMediaUrl (im : GoMap) : String :=
  let mediaURL :=
    match goGet im "image_url" with
    | some (.obj iu) =>
      match goGet iu "url" with
      | some (.str u) => u
      | _ => ""
    | _ => ""
  match goGet im "source" with
  | some (.obj src) =>
    match goGet src "type", goGet src "data" with
    | some (.str "base64"), some (.str dat) =>
      let mediaType :=
        match goGet src "media_type" with
        | some (.str mt) => if mt == "" then "image/jpeg" else mt
        | _ => "image/jpeg"
      "data:" ++ mediaType ++ ";base64," ++ dat
    | _, _ => mediaURL
  | _ => mediaURL

/-- One iteration of the content-block loop (lines 94–244): text blocks
overwrite `newContent`, image blocks upload and append (degrading to an
inline error text block on failure), `tool_use` blocks (assistant role)
accumulate `tool_calls` on the message, `tool_result` blocks emit a
separate `tool`-role message; the latter two suppress the message's own
append. -/
def processItem (c : Collab) (chatID role : String) (st : MsgState) (item : GoVal) :
    MsgState :=
  match item with
  | .obj itemMap =>
    let itemType :=
      match goGet itemMap "type" with
      | some (.str t) => t
      | _ => ""
    if itemType == "text" then
      match goGet itemMap "text" with
      | some (.str t) => { st with newContent := .str t }
      | _ => st
    else
      let st :=
        if itemType == "image_url" || itemType == "image" then
          let mediaURL := imageMediaUrl itemMap
          if mediaURL == "" then
            { st with newContent := (pushBlock st.newContent
                [("type", .str "text"),
                 ("text", .str "system: image error - Unsupported format or missing URL")]) }
          else
            match c.uploadImage mediaURL chatID with
            | .error e =>
              { st with newContent := (pushBlock st.newContent
                  [("type", .str "text"),
                   ("text", .str ("system: image upload error - " ++ e))]) }
            | .ok uploadedURL =>
              let mediaURL := if uploadedURL != "" then uploadedURL else mediaURL
              { st with newContent := (pushBlock st.newContent
                  [("type", .str "image_url"),
                   ("image_url", .obj [("url", .str mediaURL)])]) }
        else st
      let st :=
        if itemType == "tool_use" && role == "assistant" then
          let cur :=
            match goGet st.newMessage "tool_calls" with
            | some (.mapArr xs) => xs
            | _ => []
          let arguments :=
            match goGet itemMap "input" with
            | some (.obj inp) => c.marshalObj inp
            | _ => "\x7b\x7d"
          let entry : GoMap :=
            [("id", (goGet itemMap "id").getD .null),
             ("type", .str "function"),
             ("function", .obj
               [("name", (goGet itemMap "name").getD .null),
                ("arguments", .str arguments)])]
          { st with
            newMessage := goSet st.newMessage "tool_calls" (.mapArr (cur ++ [entry])),
            dontAppend := true }
        else st
      if itemType == "tool_result" then
        let result :=
          match goGet itemMap "content" with
          | some (.arr cs) =>
            let parts := cs.foldl
              (fun acc cv =>
                match cv with
                | .obj cm =>
                  match goGet cm "type", goGet cm "text" with
                  | some (.str "text"), some (.str t) =>
                    if t != "" then acc ++ [t] else acc
                  | _, _ => acc
                | _ => acc)
              []
            if parts.length > 0 then String.intercalate "" parts else ""
          | some (.str s) => s
          | _ => ""
        { st with
          extra := st.extra ++
            [[("role", .str "tool"),
              ("tool_call_id", (goGet itemMap "tool_use_id").getD .null),
              ("content", .str result)]],
          dontAppend := true }
      else st
  | _ => st

/-- Lines 72–251: one inbound message's contribution to the canonical
message list.  A non-object message, or one whose `content` is neither a
string nor a `[]interface{}` list, contributes nothing. -/
def processMessage (c : Collab) (chatID : String) (msg : GoVal) : List GoMap :=
  match msg with
  | .obj message =>
    let role :=
      match goGet message "role" with
      | some (.str r) => r
      | _ => ""
    match goGet message "content" with
    | some (.str s) => [goSet [("role", .str role)] "content" (.str s)]
    | some (.arr items) =>
      let st := items.foldl (processItem c chatID role)
        ⟨[("role", .str role)], .str "", false, []⟩
      st.extra ++
        (if st.dontAppend then [] else [goSet st.newMessage "content" st.newContent])
    | _ => []
  | _ => []

/-- The whole message loop: contributions concatenated in order. -/
def processMessages (c : Collab) (chatID : String) : List GoVal → List GoMap
  | [] => []
  | m :: rest => processMessage c chatID m ++ processMessages c chatID rest

/-- Lines 254–266: resolve the display model id back to the upstream id
on the first catalog entry whose `ID` matches and whose `Original` map
carries a different string `id`; otherwise keep scanning, and keep the
model unchanged when no entry applies. -/
def resolveModel (models : List ModelEntry) (model : String) : String :=
  match models with
  | [] => model
  | m :: rest =>
    if m.id == model then
      match m.original with
      | some orig =>
        match goGet orig "id" with
        | some (.str sourceID) =>
          if model != sourceID then sourceID else resolveModel rest model
        | _ => resolveModel rest model
      | none => resolveModel rest model
    else resolveModel rest model

/-- Lines 297–314: on the first catalog entry matching the resolved
model (by `ID` or by `Original["id"]`), drop `enable_thinking` when the
entry's capability metadata carries `think: false`; the scan breaks on
the first match either way. -/
def capDropThink (models : List ModelEntry) (model : String) (features : GoMap) : GoMap :=
  match models with
  | [] => features
  | m :: rest =>
    let origIdMatches :=
      match m.original with
      | some orig =>
        match goGet orig "id" with
        | some (.str s) => s == model
        | _ => false
      | none => false
    if m.id == model || origIdMatches then
      match m.original with
      | some orig =>
        match goGet orig "info" with
        | some (.obj info) =>
          match goGet info "meta" with
          | some (.obj meta) =>
            match goGet meta "capabilities" with
            | some (.obj caps) =>
              match goGet caps "think" with
              | some (.bool false) => goDelete features "enable_thinking"
              | _ => features
            | _ => features
          | _ => features
        | _ => features
      | none => features
    else capDropThink rest model features

/-- Lines 273–318: build the `features` map (default
`enable_thinking: false`, merged with an existing `features` object),
fold in the Qwen `enable_thinking` key and the Anthropic `thinking`
object (each deleted from the request when, and only when, its type
assertion succeeds), drop `enable_thinking` when the model does not
support thinking, and attach the map when it is nonempty. -/
def featuresSteps (models : List ModelEntry) (model : String) (result : GoMap) : GoMap :=
  let features : GoMap := [("enable_thinking", GoVal.bool false)]
  let features :=
    match goGet result "features" with
    | some (.obj fs) => fs.foldl (fun acc kv => goSet acc kv.1 kv.2) features
    | _ => features
  let fr :=
    match goGet result "enable_thinking" with
    | some v => (goSet features "enable_thinking" v, goDelete result "enable_thinking")
    | none => (features, result)
  let features := fr.1
  let result := fr.2
  let fr :=
    match goGet result "thinking" with
    | some (.obj th) =>
      (match goGet th "type" with
       | some (.str t) =>
         goSet features "enable_thinking" (.bool (t.toLower == "enabled"))
       | _ => features,
       goDelete result "thinking")
    | _ => (features, result)
  let features := fr.1
  let result := fr.2
  let features := capDropThink models model features
  if features.length > 0 then goSet result "features" (.obj features) else result

/-- The source's `FormatRequest` (src/services/request.go lines 21–321) with the
process configuration and collaborators in `c`: returns the rewritten
request map and the Go `error` value — `none` on every path, exactly as
every `return` statement of the source returns a `nil` error. -/
def FormatRequest (c : Collab) (data : GoMap) : GoMap × Option String :=
  let model0 :=
    match goGet data "model" with
    | some (.str m) => if m == "" then c.defaultModel else m
    | _ => c.defaultModel
  let chatID :=
    match goGet data "chat_id" with
    | some (.str s) => s
    | _ => ""
  let sysMsgs :=
    match goGet data "system" with
    | some sys => systemMessages sys
    | none => []
  let result :=
    match goGet data "system" with
    | some _ => goDelete data "system"
    | none => data
  let msgs :=
    match goGet result "messages" with
    | some (.arr ms) => ms
    | _ => []
  let newMessages := sysMsgs ++ processMessages c chatID msgs
  let model := resolveModel c.models model0
  let result := goSet result "model" (.str model)
  let result := goSet result "messages" (.mapArr newMessages)
  let result := goSet result "stream" (.bool true)
  (featuresSteps c.models model result, none)

/-! ## SHA-256, HMAC and encodings for the Signature Generator
(`GenerateSignature`, src/unnamed/part_005, package `services`).

Bytes are naturals below 256; 32-bit words are naturals reduced modulo
`2 ^ 32` after every arithmetic step, exactly as the FIPS 180-4
algorithm that `crypto/sha256` implements. -/

/-- Reduce to a 32-bit word. -/
def w32 (n : Nat) : Nat := n % 4294967296

/-- 32-bit right rotation. -/
def rotr32 (x n : Nat) : Nat := w32 ((x >>> n) ||| (x <<< (32 - n)))

/-- SHA-256 small sigma 0. -/
def ssig0 (x : Nat) : Nat := rotr32 x 7 ^^^ rotr32 x 18 ^^^ (x >>> 3)

/-- SHA-256 small sigma 1. -/
def ssig1 (x : Nat) : Nat := rotr32 x 17 ^^^ rotr32 x 19 ^^^ (x >>> 10)

/-- SHA-256 round constants. -/
def sha256K : List Nat :=
  [1116352408, 1899447441, 3049323471, 3921009573, 961987163, 1508970993,
   2453635748, 2870763221, 3624381080, 310598401, 607225278, 1426881987,
   1925078388, 2162078206, 2614888103, 3248222580, 3835390401, 4022224774,
   264347078, 604807628, 770255983, 1249150122, 1555081692, 1996064986,
   2554220882, 2821834349, 2952996808, 3210313671, 3336571891, 3584528711,
   113926993, 338241895, 666307205, 773529912, 1294757372, 1396182291,
   1695183700, 1986661051, 2177026350, 2456956037, 2730485921, 2820302411,
   3259730800, 3345764771, 3516065817, 3600352804, 4094571909, 275423344,
   430227734, 506948616, 659060556, 883997877, 958139571, 1322822218,
   1537002063, 1747873779, 1955562222, 2024104815, 2227730452, 2361852424,
   2428436474, 2756734187, 3204031479, 3329325298]

/-- SHA-256 initial hash state. -/
def sha256H0 : List Nat :=
  [1779033703, 3144134277, 1013904242, 2773480762,
   1359893119, 2600822924, 528734635, 1541459225]

/-- Big-endian bytes of `n`, `k` bytes wide. -/
def natToBytesBE : Nat → Nat → List Nat
  | 0, _ => []
  | k + 1, n => natToBytesBE k (n / 256) ++ [n % 256]

/-- Group bytes into big-endian 32-bit words. -/
def bytesToWords : List Nat → List Nat
  | b0 :: b1 :: b2 :: b3 :: rest =>
    (((b0 * 256 + b1) * 256 + b2) * 256 + b3) :: bytesToWords rest
  | _ => []

/-- One message-schedule extension step. -/
def schedStep (ws : List Nat) : List Nat :=
  let n := ws.length
  ws ++ [w32 (ws.getD (n - 16) 0 + ssig0 (ws.getD (n - 15) 0) +
              ws.getD (n - 7) 0 + ssig1 (ws.getD (n - 2) 0))]

/-- Extend the message schedule `k` times. -/
def schedule : Nat → List Nat → List Nat
  | 0, ws => ws
  | k + 1, ws => schedule k (schedStep ws)

/-- One SHA-256 compression round. -/
def compressRound (st : Nat × Nat × Nat × Nat × Nat × Nat × Nat × Nat)
    (kw : Nat × Nat) : Nat × Nat × Nat × Nat × Nat × Nat × Nat × Nat :=
  match st, kw with
  | (a, b, c, d, e, f, g, h), (ki, wi) =>
    let s1 := rotr32 e 6 ^^^ rotr32 e 11 ^^^ rotr32 e 25
    let ch := (e &&& f) ^^^ ((e ^^^ 4294967295) &&& g)
    let t1 := w32 (h + s1 + ch + ki + wi)
    let s0 := rotr32 a 2 ^^^ rotr32 a 13 ^^^ rotr32 a 22
    let maj := (a &&& b) ^^^ (a &&& c) ^^^ (b &&& c)
    let t2 := w32 (s0 + maj)
    (w32 (t1 + t2), a, b, c, w32 (d + t1), e, f, g)

/-- Compress one 64-byte block into the running hash state. -/
def compressBlock (h : List Nat) (block : List Nat) : List Nat :=
  let ws := schedule 48 (bytesToWords block)
  let r := (sha256K.zip ws).foldl compressRound
    (h.getD 0 0, h.getD 1 0, h.getD 2 0, h.getD 3 0,
     h.getD 4 0, h.getD 5 0, h.getD 6 0, h.getD 7 0)
  match r with
  | (a, b, c, d, e, f, g, hh) =>
    [w32 (h.getD 0 0 + a), w32 (h.getD 1 0 + b), w32 (h.getD 2 0 + c),
     w32 (h.getD 3 0 + d), w32 (h.getD 4 0 + e), w32 (h.getD 5 0 + f),
     w32 (h.getD 6 0 + g), w32 (h.getD 7 0 + hh)]

/-- FIPS 180-4 padding: `0x80`, zeros to 56 mod 64, the bit length as
eight big-endian bytes. -/
def sha256Pad (msg : List Nat) : List Nat :=
  let len := msg.length
  msg ++ 0x80 :: List.replicate ((119 - len % 64) % 64) 0 ++ natToBytesBE 8 (len * 8)

/-- Split into 64-byte chunks (fuel-bounded; the input length is a
multiple of 64 after padding). -/
def chunks64 : Nat → List Nat → List (List Nat)
  | 0, _ => []
  | _ + 1, [] => []
  | fuel + 1, s => s.take 64 :: chunks64 fuel (s.drop 64)

/-- SHA-256 of a byte sequence. -/
def sha256Bytes (msg : List Nat) : List Nat :=
  let padded := sha256Pad msg
  let hs := (chunks64 (padded.length / 64 + 1) padded).foldl compressBlock sha256H0
  hs.foldr (fun w acc => natToBytesBE 4 w ++ acc) []

/-- HMAC-SHA256 (RFC 2104, as `crypto/hmac` with `sha256.New`). -/
def hmacSha256 (key msg : List Nat) : List Nat :=
  let key := if key.length > 64 then sha256Bytes key else key
  let key := key ++ List.replicate (64 - key.length) 0
  sha256Bytes ((key.map fun b => b ^^^ 0x5c) ++
    sha256Bytes ((key.map fun b => b ^^^ 0x36) ++ msg))

/-- Lowercase hex digit. -/
def hexDigit (n : Nat) : Char :=
  if n < 10 then Char.ofNat ('0'.toNat + n) else Char.ofNat ('a'.toNat + n - 10)

/-- Lowercase hex of a byte sequence (`hex.EncodeToString`). -/
def bytesToHex (bs : List Nat) : String :=
  ⟨bs.foldr (fun b acc => hexDigit (b / 16) :: hexDigit (b % 16) :: acc) []⟩

/-- UTF-8 bytes of one character. -/
def charUtf8 (c : Char) : List Nat :=
  let n := c.toNat
  if n < 0x80 then [n]
  else if n < 0x800 then [0xc0 ||| (n >>> 6), 0x80 ||| (n &&& 0x3f)]
  else if n < 0x10000 then
    [0xe0 ||| (n >>> 12), 0x80 ||| ((n >>> 6) &&& 0x3f), 0x80 ||| (n &&& 0x3f)]
  else
    [0xf0 ||| (n >>> 18), 0x80 ||| ((n >>> 12) &&& 0x3f),
     0x80 ||| ((n >>> 6) &&& 0x3f), 0x80 ||| (n &&& 0x3f)]

/-- UTF-8 bytes of a string: Go's `[]byte(s)`. -/
def utf8Encode (s : String) : List Nat :=
  s.data.foldr (fun c acc => charUtf8 c ++ acc) []

/-- The standard base64 alphabet. -/
def base64Chars : List Char :=
  "ABCDEFGHIJKLMNOPQRSTUVWXYZabcdefghijklmnopqrstuvwxyz0123456789+/".data

/-- A base64 alphabet character. -/
def b64c (i : Nat) : Char := base64Chars.getD i 'A'

/-- Base64 with padding over byte triples. -/
def base64EncodeAux : List Nat → List Char
  | b1 :: b2 :: b3 :: rest =>
    let n := (b1 * 256 + b2) * 256 + b3
    b64c (n >>> 18) :: b64c ((n >>> 12) &&& 63) :: b64c ((n >>> 6) &&& 63) ::
      b64c (n &&& 63) :: base64EncodeAux rest
  | [b1, b2] =>
    let n := (b1 * 256 + b2) * 256
    [b64c (n >>> 18), b64c ((n >>> 12) &&& 63), b64c ((n >>> 6) &&& 63), '=']
  | [b1] =>
    let n := b1 * 256 * 256
    [b64c (n >>> 18), b64c ((n >>> 12) &&& 63), '=', '=']
  | [] => []

/-- Go `base64.StdEncoding.EncodeToString`. -/
def base64Encode (bs : List Nat) : String := ⟨base64EncodeAux bs⟩

/-! ## The Signature Generator (`GenerateSignature`) -/

/-- Go `strconv.ParseInt(s, 10, 64)`: optional sign, decimal digits,
value within the signed 64-bit range. -/
def parseGoInt64 (s : String) : Option Int :=
  let (neg, ds) :=
    match s.data with
    | '+' :: t => (false, t)
    | '-' :: t => (true, t)
    | t => (false, t)
  if ds.isEmpty || !ds.all Char.isDigit then none
  else
    let v : Int := if neg then -(digitsToNat ds : Int) else (digitsToNat ds : Int)
    if v < -(2 ^ 63 : Int) || v > (2 ^ 63 - 1 : Int) then none else some v

/-- Go `strconv.FormatInt i 10` and `fmt %d` of an `int64`. -/
def intDec (i : Int) : String :=
  if i < 0 then "-" ++ Nat.repr i.natAbs else Nat.repr i.toNat

/-- First binding of `k` in a `map[string]string` entry list. -/
def lookupStr : List (String × String) → String → Option String
  | [], _ => none
  | (k', v) :: rest, k => if k' == k then some v else lookupStr rest k

/-- Lexicographic comparison on code points — the same order as Go's
byte-wise string comparison, since UTF-8 preserves code-point order. -/
def charListLt : List Char → List Char → Bool
  | [], [] => false
  | [], _ :: _ => true
  | _ :: _, [] => false
  | c :: cs, d :: ds =>
    if c.toNat < d.toNat then true
    else if d.toNat < c.toNat then false
    else charListLt cs ds

/-- Go string `<`. -/
def strLtGo (a b : String) : Bool := charListLt a.data b.data

/-- Insert into a sorted key list (ascending; Go's `sort.Strings`). -/
def insertSorted (k : String) : List String → List String
  | [] => [k]
  | x :: xs => if strLtGo x k then x :: insertSorted k xs else k :: x :: xs

/-- Sort key names ascending. -/
def sortStrings (ks : List String) : List String :=
  ks.foldr insertSorted []

/-- The fixed upstream secret of src/unnamed/part_005. -/
def secretKey : String := "key-@@@@)))()((9))-xxxx&&&%%%%%"

/-- Hex-encoded HMAC-SHA256 (the source's `hmacSHA256` helper). -/
def hmacHex (key msg : List Nat) : String := bytesToHex (hmacSha256 key msg)

/-- The source's `SignatureResult`. -/
structure SignatureResult where
  signature : String
  timestamp : Int
deriving DecidableEq, Repr

/-- The joined `k1,v1,k2,v2,...` parameter string over sorted keys. -/
def paramsJoined (params : List (String × String)) : String :=
  String.intercalate ","
    ((sortStrings (params.map Prod.fst)).map fun k => k ++ "," ++ (lookupStr params k).getD "")

/-- The source's `GenerateSignature` (src/unnamed/part_005 lines 23–75): validate the
three required parameters in order, parse the timestamp as an `int64`
(Go integer division truncates toward zero, `Int.tdiv`), then the two HMAC levels over the
5-minute window id and over `params|base64(content)|timestamp`. -/
def GenerateSignature (params : List (String × String)) (content : String) :
    Except String SignatureResult :=
  if (lookupStr params "timestamp").isNone then
    .error "missing required parameter: timestamp"
  else if (lookupStr params "requestId").isNone then
    .error "missing required parameter: requestId"
  else if (lookupStr params "user_id").isNone then
    .error "missing required parameter: user_id"
  else
    match parseGoInt64 ((lookupStr params "timestamp").getD "") with
    | none => .error "invalid timestamp"
    | some requestTime =>
      let signatureExpire := Int.tdiv requestTime 300000
      let signature1 := hmacHex (utf8Encode secretKey) (utf8Encode (intDec signatureExpire))
      let plaintext2 :=
        paramsJoined params ++ "|" ++ base64Encode (utf8Encode content) ++ "|" ++
          intDec requestTime
      .ok ⟨hmacHex (utf8Encode signature1) (utf8Encode plaintext2), requestTime⟩

/-- The five-step signature algorithm as the spec states it (§4.2), for
comparison with the source's `GenerateSignature`: step 1 takes
`windowId = floor(timestampMillis / 300000)` — a floor, where the source
truncates toward zero. -/
def signatureSpecFiveStep (params : List (String × String)) (content : String)
    (t : Int) : String :=
  let windowId := Int.fdiv t 300000
  let level1 := hmacHex (utf8Encode secretKey) (utf8Encode (intDec windowId))
  let plaintext2 :=
    paramsJoined params ++ "|" ++ base64Encode (utf8Encode content) ++ "|" ++ intDec t
  hmacHex (utf8Encode level1) (utf8Encode plaintext2)

/-! ## Auxiliary notions for the theorems -/

/-- Two maps that agree except possibly at the value of the first
binding of `k` (and agree from that binding's tail on).  The two runs of
the normalizer compared in the claims differ only in the value stored
under one key until that key is overwritten. -/
def eqExceptFirst (k : String) : GoMap → GoMap → Prop
  | [], [] => True
  | (k1, v1) :: r1, (k2, v2) :: r2 =>
    k1 = k2 ∧ (if k1 = k then r1 = r2 else v1 = v2 ∧ eqExceptFirst k r1 r2)
  | _, _ => False

/-- A concrete collaborator assembly for the closed evaluations: empty
model catalog, uploads skipped (the anonymous-mode `("", nil)` result),
a trivial marshaller. -/
def collabDemo : Collab :=
  ⟨"glm-4.5", fun _ _ => .ok "", fun _ => "", []⟩

/-! ## Helper lemmas -/

theorem goGet_goSet_self (m : GoMap) (k : String) (v : GoVal) :
    goGet (goSet m k v) k = some v := by
  induction m with
  | nil => simp [goSet, goGet]
  | cons kv rest ih =>
    obtain ⟨k', v'⟩ := kv
    by_cases h : k' = k
    · simp [goSet, goGet, h]
    · simp [goSet, goGet, h, ih]

theorem goGet_goSet_ne {m : GoMap} {k' k : String} {v : GoVal} (h : k' ≠ k) :
    goGet (goSet m k' v) k = goGet m k := by
  induction m with
  | nil => simp [goSet, goGet, h]
  | cons kv rest ih =>
    obtain ⟨k1, v1⟩ := kv
    by_cases h1 : k1 = k'
    · subst h1
      simp [goSet, goGet, h, ih]
    · simp [goSet, goGet, h1, ih]

theorem goGet_goDelete_self (m : GoMap) (k : String) :
    goGet (goDelete m k) k = none := by
  induction m with
  | nil => rfl
  | cons kv rest ih =>
    obtain ⟨k1, v1⟩ := kv
    by_cases h1 : k1 = k
    · have hstep : goDelete ((k1, v1) :: rest) k = goDelete rest k := by
        simp [goDelete, h1]
      rw [hstep, ih]
    · have hstep : goDelete ((k1, v1) :: rest) k = (k1, v1) :: goDelete rest k := by
        simp [goDelete, h1]
      rw [hstep]
      simp [goGet, h1, ih]

theorem goGet_goDelete_ne {m : GoMap} {k' k : String} (h : k' ≠ k) :
    goGet (goDelete m k') k = goGet m k := by
  induction m with
  | nil => rfl
  | cons kv rest ih =>
    obtain ⟨k1, v1⟩ := kv
    by_cases h1 : k1 = k'
    · have hstep : goDelete ((k1, v1) :: rest) k' = goDelete rest k' := by
        simp [goDelete, h1]
      rw [hstep, ih]
      have : k1 ≠ k := by rw [h1]; exact h
      simp [goGet, this]
    · have hstep : goDelete ((k1, v1) :: rest) k' = (k1, v1) :: goDelete rest k' := by
        simp [goDelete, h1]
      rw [hstep]
      by_cases h2 : k1 = k
      · simp [goGet, h2]
      · simp [goGet, h2, ih]

theorem featuresSteps_goGet (models : List ModelEntry) (model : String) (r : GoMap)
    {k : String} (h1 : k ≠ "features") (h2 : k ≠ "enable_thinking")
    (h3 : k ≠ "thinking") :
    goGet (featuresSteps models model r) k = goGet r k := by
  simp only [featuresSteps]
  repeat' split
  all_goals
    simp [apply_ite (fun m => goGet m k), goGet_goSet_ne (Ne.symm h1),
      goGet_goDelete_ne (Ne.symm h2), goGet_goDelete_ne (Ne.symm h3)]

theorem eqExceptFirst_refl (k : String) (m : GoMap) : eqExceptFirst k m m := by
  induction m with
  | nil => trivial
  | cons kv r ih =>
    obtain ⟨k1, v1⟩ := kv
    exact ⟨rfl, by by_cases h : k1 = k <;> simp [h, ih]⟩

theorem eqExceptFirst_goSet_same (k : String) (m : GoMap) (a b : GoVal) :
    eqExceptFirst k (goSet m k a) (goSet m k b) := by
  induction m with
  | nil => simp [goSet, eqExceptFirst]
  | cons kv rest ih =>
    obtain ⟨k1, v1⟩ := kv
    by_cases h : k1 = k
    · simp [goSet, eqExceptFirst, h]
    · simp [goSet, eqExceptFirst, h, ih]

theorem eqExceptFirst_goGet_ne {k : String} {m m' : GoMap}
    (hr : eqExceptFirst k m m') {q : String} (hq : q ≠ k) :
    goGet m q = goGet m' q := by
  induction m generalizing m' with
  | nil => cases m' with
    | nil => rfl
    | cons kv r => exact absurd hr (by simp [eqExceptFirst])
  | cons kv r ih =>
    obtain ⟨k1, v1⟩ := kv
    cases m' with
    | nil => exact absurd hr (by simp [eqExceptFirst])
    | cons kv' r' =>
      obtain ⟨k2, v2⟩ := kv'
      obtain ⟨hk, hrest⟩ := hr
      subst hk
      by_cases hkk : k1 = k
      · rw [if_pos hkk] at hrest
        subst hrest
        have hne : k1 ≠ q := by rw [hkk]; exact Ne.symm hq
        simp [goGet, hne]
      · rw [if_neg hkk] at hrest
        obtain ⟨hv, hrec⟩ := hrest
        subst hv
        by_cases hq1 : k1 = q
        · simp [goGet, hq1]
        · simp [goGet, hq1, ih hrec]

theorem eqExceptFirst_goSet {k : String} {m m' : GoMap}
    (hr : eqExceptFirst k m m') (k' : String) (v : GoVal) :
    eqExceptFirst k (goSet m k' v) (goSet m' k' v) := by
  induction m generalizing m' with
  | nil => cases m' with
    | nil => simp [goSet, eqExceptFirst]
    | cons kv r => exact absurd hr (by simp [eqExceptFirst])
  | cons kv r ih =>
    obtain ⟨k1, v1⟩ := kv
    cases m' with
    | nil => exact absurd hr (by simp [eqExceptFirst])
    | cons kv' r' =>
      obtain ⟨k2, v2⟩ := kv'
      obtain ⟨hk, hrest⟩ := hr
      subst hk
      by_cases h1 : k1 = k'
      · subst h1
        simp only [goSet, beq_self_eq_true, if_true]
        by_cases hkk : k1 = k
        · rw [if_pos hkk] at hrest
          exact ⟨rfl, by rw [if_pos hkk]; exact hrest⟩
        · rw [if_neg hkk] at hrest
          exact ⟨rfl, by rw [if_neg hkk]; exact ⟨rfl, hrest.2⟩⟩
      · simp only [goSet, beq_iff_eq, if_neg h1]
        by_cases hkk : k1 = k
        · rw [if_pos hkk] at hrest
          exact ⟨rfl, by rw [if_pos hkk]; rw [hrest]⟩
        · rw [if_neg hkk] at hrest
          exact ⟨rfl, by rw [if_neg hkk]; exact ⟨hrest.1, ih hrest.2⟩⟩

theorem eqExceptFirst_goDelete {k : String} {m m' : GoMap}
    (hr : eqExceptFirst k m m') (k' : String) :
    eqExceptFirst k (goDelete m k') (goDelete m' k') := by
  induction m generalizing m' with
  | nil => cases m' with
    | nil => simp [goDelete, eqExceptFirst]
    | cons kv r => exact absurd hr (by simp [eqExceptFirst])
  | cons kv r ih =>
    obtain ⟨k1, v1⟩ := kv
    cases m' with
    | nil => exact absurd hr (by simp [eqExceptFirst])
    | cons kv' r' =>
      obtain ⟨k2, v2⟩ := kv'
      obtain ⟨hk, hrest⟩ := hr
      subst hk
      by_cases hkk : k1 = k
      · rw [if_pos hkk] at hrest
        subst hrest
        by_cases h1 : k1 = k'
        · have hs1 : goDelete ((k1, v1) :: r) k' = goDelete r k' := by
            simp [goDelete, h1]
          have hs2 : goDelete ((k1, v2) :: r) k' = goDelete r k' := by
            simp [goDelete, h1]
          rw [hs1, hs2]
          exact eqExceptFirst_refl k (goDelete r k')
        · have hs1 : goDelete ((k1, v1) :: r) k' = (k1, v1) :: goDelete r k' := by
            simp [goDelete, h1]
          have hs2 : goDelete ((k1, v2) :: r) k' = (k1, v2) :: goDelete r k' := by
            simp [goDelete, h1]
          rw [hs1, hs2]
          exact ⟨rfl, by rw [if_pos hkk]⟩
      · rw [if_neg hkk] at hrest
        obtain ⟨hv, hrec⟩ := hrest
        subst hv
        by_cases h1 : k1 = k'
        · have hs1 : goDelete ((k1, v1) :: r) k' = goDelete r k' := by
            simp [goDelete, h1]
          have hs2 : goDelete ((k1, v1) :: r') k' = goDelete r' k' := by
            simp [goDelete, h1]
          rw [hs1, hs2]
          exact ih hrec
        · have hs1 : goDelete ((k1, v1) :: r) k' = (k1, v1) :: goDelete r k' := by
            simp [goDelete, h1]
          have hs2 : goDelete ((k1, v1) :: r') k' = (k1, v1) :: goDelete r' k' := by
            simp [goDelete, h1]
          rw [hs1, hs2]
          exact ⟨rfl, by rw [if_neg hkk]; exact ⟨rfl, ih hrec⟩⟩

theorem eqExceptFirst_goSet_eq {k : String} {m m' : GoMap}
    (hr : eqExceptFirst k m m') (v : GoVal) :
    goSet m k v = goSet m' k v := by
  induction m generalizing m' with
  | nil => cases m' with
    | nil => rfl
    | cons kv r => exact absurd hr (by simp [eqExceptFirst])
  | cons kv r ih =>
    obtain ⟨k1, v1⟩ := kv
    cases m' with
    | nil => exact absurd hr (by simp [eqExceptFirst])
    | cons kv' r' =>
      obtain ⟨k2, v2⟩ := kv'
      obtain ⟨hk, hrest⟩ := hr
      subst hk
      by_cases hkk : k1 = k
      · rw [if_pos hkk] at hrest
        subst hrest
        simp [goSet, hkk]
      · rw [if_neg hkk] at hrest
        obtain ⟨hv, hrec⟩ := hrest
        subst hv
        simp [goSet, hkk, ih hrec]

theorem processMessages_append (c : Collab) (cid : String) (xs ys : List GoVal) :
    processMessages c cid (xs ++ ys) =
      processMessages c cid xs ++ processMessages c cid ys := by
  induction xs with
  | nil => simp [processMessages]
  | cons x xs ih => simp [processMessages, ih]

theorem processMessage_opaque_content (c : Collab) (cid : String) (mm : GoMap)
    (hs : (goGet mm "content").bind GoVal.asStr = none)
    (ha : (goGet mm "content").bind GoVal.asArr = none) :
    processMessage c cid (.obj mm) = [] := by
  rcases h : goGet mm "content" with _ | v
  · simp [processMessage, h]
  · rw [h] at hs ha
    rcases v with _ | b | ⟨m', e'⟩ | s | xs | fs | ms
    · simp [processMessage, h]
    · simp [processMessage, h]
    · simp [processMessage, h]
    · simp [GoVal.asStr] at hs
    · simp [GoVal.asArr] at ha
    · simp [processMessage, h]
    · simp [processMessage, h]

theorem tdiv_eq_fdiv_of_nonneg (t : Int) (h : 0 ≤ t) :
    Int.tdiv t 300000 = Int.fdiv t 300000 := by
  cases t with
  | ofNat n => cases n <;> rfl
  | negSucc n => exact absurd h (by exact (Int.negSucc_lt_zero n).not_le)

theorem formatRequest_system (c : Collab) (data : GoMap) :
    goGet (FormatRequest c data).1 "system" = none := by
  simp only [FormatRequest]
  rw [featuresSteps_goGet _ _ _ (show ("system" : String) ≠ "features" by decide)
        (show ("system" : String) ≠ "enable_thinking" by decide)
        (show ("system" : String) ≠ "thinking" by decide),
      goGet_goSet_ne (show ("stream" : String) ≠ "system" by decide),
      goGet_goSet_ne (show ("messages" : String) ≠ "system" by decide),
      goGet_goSet_ne (show ("model" : String) ≠ "system" by decide)]
  rcases h : goGet data "system" with _ | v
  · simp [h]
  · simp [h, goGet_goDelete_self]

theorem formatRequest_messages (c : Collab) (data : GoMap) :
    ∃ ms, goGet (FormatRequest c data).1 "messages" = some (.mapArr ms) := by
  apply Exists.intro
  simp only [FormatRequest]
  rw [featuresSteps_goGet _ _ _ (show ("messages" : String) ≠ "features" by decide)
        (show ("messages" : String) ≠ "enable_thinking" by decide)
        (show ("messages" : String) ≠ "thinking" by decide),
      goGet_goSet_ne (show ("stream" : String) ≠ "messages" by decide)]
  exact goGet_goSet_self _ _ _

/-! ## The claims -/

/-- C9: for every think mode, stored previous phase and event phase, an
upstream event whose `delta_content` and `edit_content` are both empty
makes `FormatResponse` return `nil` before the statement that updates
the stored phase: nothing is emitted and `previousPhase` is unchanged. -/
theorem empty_event_preserves_phase (mode prev phase : String) (done : Bool) :
    formatResponse mode prev ⟨phase, "", "", done⟩ = (none, prev) := rfl

/-- C3 counterexample: in `reasoning` mode the thinking-phase delta
`"> hello\n"` is emitted with its blockquote marker intact — the
pattern `\n>\s?` only matches a marker preceded by a newline — so the
output is not `ReasoningText "hello\n"` as the claim states. -/
theorem reasoning_blockquote_bare_delta :
    (formatResponse "reasoning" "thinking" ⟨"thinking", "> hello\n", "", false⟩).1 =
      some (.reasoningText "> hello\n") ∧
    (formatResponse "reasoning" "thinking" ⟨"thinking", "> hello\n", "", false⟩).1 ≠
      some (.reasoningText "hello\n") :=
  ⟨rfl, by decide⟩

/-- C3 amended: the blockquote marker is stripped only when preceded by
a newline: the delta `"\n> hello\n"` yields `ReasoningText "\nhello\n"`,
while the bare delta `"> hello\n"` passes through unchanged. -/
theorem reasoning_blockquote_newline_strip :
    formatResponse "reasoning" "thinking" ⟨"thinking", "\n> hello\n", "", false⟩ =
      (some (.reasoningText "\nhello\n"), "thinking") ∧
    formatResponse "reasoning" "thinking" ⟨"thinking", "> hello\n", "", false⟩ =
      (some (.reasoningText "> hello\n"), "thinking") :=
  ⟨rfl, rfl⟩

/-- C2: at the failing input — previous phase `thinking`, an
`answer`-phase event with a `duration="7"` attribute before the
reasoning close and nothing after it — the details-mode output carries
no `<summary>Thought for 7 seconds</summary>` trailer: the answer-phase
rewrite has already replaced the whole content (including the duration
attribute) by the bare close marker before the details-mode trailer
logic looks for a duration, so the trailer logic finds nothing. -/
theorem details_duration_trailer_dropped :
    formatResponse "details" "thinking"
        ⟨"answer", "summary> duration=\"7\"\n</details>", "", false⟩ =
      (some (.answerText "\n\n</div></details>"), "answer") ∧
    goContains "\n\n</div></details>" "<summary>Thought for 7 seconds</summary>" = false :=
  ⟨rfl, rfl⟩

/-- C1 counterexample: for the answer-phase content
`"<summary>s</summary>\n</details>x"` (which contains `summary>` and
normalizes to a content with a close marker followed by `"x"`), the
rewritten content with `previousPhase = thinking` is
`"\n\n</reasoning>\n\nx"` — a blank line separates the close marker from
the trailing text, so it is not the close marker followed immediately by
the trailing text; and with no trailing text the result
`"\n\n</reasoning>"` is not exactly the close marker `"</reasoning>"`. -/
theorem answer_close_rewrite_not_immediate :
    goContains "<summary>s</summary>\n</details>x" "summary>" = true ∧
    answerCloseRewrite "thinking"
        (normalizeTags "answer" "<summary>s</summary>\n</details>x") =
      "\n\n</reasoning>\n\nx" ∧
    answerCloseRewrite "thinking"
        (normalizeTags "answer" "<summary>s</summary>\n</details>x") ≠
      "</reasoning>" ++ "x" ∧
    answerCloseRewrite "answer"
        (normalizeTags "answer" "<summary>s</summary>\n</details>") ≠
      "</reasoning>" :=
  ⟨rfl, rfl, by decide, by decide⟩

/-- C1 amended: for an answer-phase content containing `summary>` whose
tag normalization contains the close marker, splitting at the first
close into `pre ++ "</reasoning>" ++ post`: with non-whitespace text
after the close the rewrite emits `"\n\n</reasoning>\n\n"` followed by
`post` with its leading newlines removed when the previous phase is
`thinking`, and the empty string when it is `answer`; with no
non-whitespace text after the close it emits `"\n\n</reasoning>"`
(the close marker padded by a leading blank line). -/
theorem answer_close_rewrite_cases (prev raw : String) (pre post : List Char)
    (_hsum : goContains raw "summary>" = true)
    (hsplit : splitFirst "</reasoning>".data (normalizeTags "answer" raw).data =
      some (pre, post)) :
    (goTrimSpace ⟨post⟩ ≠ "" → prev = "thinking" →
      answerCloseRewrite prev (normalizeTags "answer" raw) =
        "\n\n</reasoning>\n\n" ++ trimLeftNl ⟨post⟩) ∧
    (goTrimSpace ⟨post⟩ ≠ "" → prev = "answer" →
      answerCloseRewrite prev (normalizeTags "answer" raw) = "") ∧
    (goTrimSpace ⟨post⟩ = "" →
      answerCloseRewrite prev (normalizeTags "answer" raw) = "\n\n</reasoning>") := by
  unfold answerCloseRewrite
  rw [hsplit]
  refine ⟨fun hne hth => ?_, fun hne hans => ?_, fun heq => ?_⟩
  · subst hth
    have h1 : (goTrimSpace ⟨post⟩ != "") = true := bne_iff_ne.mpr hne
    simp [h1]
  · subst hans
    have h1 : (goTrimSpace ⟨post⟩ != "") = true := bne_iff_ne.mpr hne
    have h2 : (("answer" : String) == "thinking") = false := rfl
    simp [h1, h2]
  · have h1 : (goTrimSpace ⟨post⟩ != "") = false := by simp [heq]
    simp [h1]

/-- C1 witness: the amended statement instantiated at the
counterexample's input with previous phase `thinking`. -/
theorem answer_close_rewrite_cases_witness :
    answerCloseRewrite "thinking"
        (normalizeTags "answer" "<summary>s</summary>\n</details>x") =
      "\n\n</reasoning>\n\nx" :=
  (answer_close_rewrite_cases "thinking" "<summary>s</summary>\n</details>x"
      "<summary>s</summary>\n\n".data "x".data rfl rfl).1 (by decide) rfl

/-- C4: the tool-call reconstructor fed `{"id":"1","name":"x",` emits
nothing (the accumulated text is not valid JSON), and after the second
fragment `"arguments":"{\"a\":1}"}` emits exactly one invocation with
id `"1"`, name `"x"` and arguments object `{a: 1}`; the loop breaks
there, so no further invocation is produced whatever fragments follow in
the same stream. -/
theorem tool_reconstructor_single_emission :
    runToolCalls ["\x7b\"id\":\"1\",\"name\":\"x\","] "" = [] ∧
    ∀ rest : List String,
      runToolCalls ("\x7b\"id\":\"1\",\"name\":\"x\"," ::
          "\"arguments\":\"\x7b\\\"a\\\":1\x7d\"\x7d" :: rest) "" =
        [⟨some (.str "1"), some (.str "x"), some [("a", .num 1 0)]⟩] := by
  refine ⟨rfl, fun rest => ?_⟩
  have h1 : tryCompleteToolCall ("" ++ "\x7b\"id\":\"1\",\"name\":\"x\",") = none := rfl
  have h2 : tryCompleteToolCall (("" ++ "\x7b\"id\":\"1\",\"name\":\"x\",") ++
      "\"arguments\":\"\x7b\\\"a\\\":1\x7d\"\x7d") =
      some ⟨some (.str "1"), some (.str "x"), some [("a", .num 1 0)]⟩ := rfl
  simp only [runToolCalls, h1, h2]

/-- C5 counterexample: at timestamp `"-1"` the code's window id is the
quotient truncated toward zero (`0`), not the floor (`-1`) the claim's
five-step algorithm specifies, and the resulting signature differs. -/
theorem generate_signature_negative_window :
    (GenerateSignature [("timestamp", "-1"), ("requestId", "r"), ("user_id", "u")]
        "").toOption ≠
      some ⟨signatureSpecFiveStep
        [("timestamp", "-1"), ("requestId", "r"), ("user_id", "u")] "" (-1), -1⟩ := by
  decide

/-- C5 amended: for every parameter map holding the three required keys
whose timestamp parses as a nonnegative 64-bit integer, the code
computes exactly the spec's five-step signature (for nonnegative
timestamps truncation equals floor); it errors when `timestamp` is
absent, when `requestId` or `user_id` is absent, and when the timestamp
does not parse as a 64-bit integer. -/
theorem generate_signature_five_step :
    (∀ (params : List (String × String)) (content ts : String) (t : Int),
      lookupStr params "timestamp" = some ts →
      (lookupStr params "requestId").isSome = true →
      (lookupStr params "user_id").isSome = true →
      parseGoInt64 ts = some t → 0 ≤ t →
      GenerateSignature params content =
        .ok ⟨signatureSpecFiveStep params content t, t⟩) ∧
    (∀ params content, lookupStr params "timestamp" = none →
      GenerateSignature params content =
        .error "missing required parameter: timestamp") ∧
    (∀ params content ts, lookupStr params "timestamp" = some ts →
      lookupStr params "requestId" = none →
      GenerateSignature params content =
        .error "missing required parameter: requestId") ∧
    (∀ params content ts, lookupStr params "timestamp" = some ts →
      (lookupStr params "requestId").isSome = true →
      lookupStr params "user_id" = none →
      GenerateSignature params content =
        .error "missing required parameter: user_id") ∧
    (∀ params content ts, lookupStr params "timestamp" = some ts →
      (lookupStr params "requestId").isSome = true →
      (lookupStr params "user_id").isSome = true →
      parseGoInt64 ts = none →
      GenerateSignature params content = .error "invalid timestamp") := by
  refine ⟨?_, ?_, ?_, ?_, ?_⟩
  · intro params content ts t hts hr hu hp ht
    obtain ⟨rv, hr'⟩ := Option.isSome_iff_exists.mp hr
    obtain ⟨uv, hu'⟩ := Option.isSome_iff_exists.mp hu
    simp only [GenerateSignature, signatureSpecFiveStep, hts, hr', hu', hp,
      Option.isNone_some, Bool.false_eq_true, if_false, Option.getD_some]
    rw [tdiv_eq_fdiv_of_nonneg t ht]
  · intro params content h
    simp only [GenerateSignature, h, Option.isNone_none, if_true]
  · intro params content ts hts hr
    simp only [GenerateSignature, hts, hr, Option.isNone_some, Option.isNone_none,
      Bool.false_eq_true, if_false, if_true]
  · intro params content ts hts hr hu
    obtain ⟨rv, hr'⟩ := Option.isSome_iff_exists.mp hr
    simp only [GenerateSignature, hts, hr', hu, Option.isNone_some, Option.isNone_none,
      Bool.false_eq_true, if_false, if_true]
  · intro params content ts hts hr hu hp
    obtain ⟨rv, hr'⟩ := Option.isSome_iff_exists.mp hr
    obtain ⟨uv, hu'⟩ := Option.isSome_iff_exists.mp hu
    simp only [GenerateSignature, hts, hr', hu', hp, Option.isNone_some,
      Bool.false_eq_true, if_false, Option.getD_some]

/-- C6 counterexample: a request whose message list is not parseable as
a list of messages (`messages` holds a string) still yields a `nil`
error — `Normalize` does not fail there, refuting the claim's "returns
an error if the message list cannot be parsed" direction. -/
theorem format_request_unparseable_messages_ok :
    (goGet [("messages", GoVal.str "oops")] "messages").bind GoVal.asArr = none ∧
    (FormatRequest collabDemo [("messages", GoVal.str "oops")]).2 = none :=
  ⟨rfl, rfl⟩

/-- C6 amended: `FormatRequest` never returns an error: every path of
the source returns a `nil` error, for every collaborator assembly and
every request map — malformed message lists and malformed optional
fields alike are skipped silently. -/
theorem format_request_never_errors (c : Collab) (data : GoMap) :
    (FormatRequest c data).2 = none := rfl

/-- C7: at the failing input — one message whose content holds two text
blocks `"a"` then `"b"` — normalization emits the message with content
`"b"` alone: each text block overwrites the accumulating value instead
of appending to it, so every text block but the last is dropped. -/
theorem text_blocks_overwrite :
    processMessage collabDemo "chat"
        (.obj [("role", .str "user"),
               ("content", .arr [.obj [("type", .str "text"), ("text", .str "a")],
                                 .obj [("type", .str "text"), ("text", .str "b")]])]) =
      [[("role", .str "user"), ("content", .str "b")]] := rfl

/-- C8 counterexample: normalizing a one-message request yields a
canonical message list with that message; normalizing the canonical
output again yields an empty message list — the canonical
`[]map[string]interface{}` slice no longer satisfies the inbound
`[]interface{}` type assertion, so the second pass drops everything. -/
theorem normalize_not_idempotent :
    goGet (FormatRequest collabDemo
        [("messages", GoVal.arr [.obj [("role", .str "user"), ("content", .str "hi")]])]).1
      "messages" = some (.mapArr [[("role", .str "user"), ("content", .str "hi")]]) ∧
    goGet (FormatRequest collabDemo (FormatRequest collabDemo
        [("messages", GoVal.arr [.obj [("role", .str "user"), ("content", .str "hi")]])]).1).1
      "messages" = some (.mapArr []) :=
  ⟨rfl, rfl⟩

/-- C8 amended: `Normalize` is not idempotent — applying it to the
output of a previous application always produces an empty canonical
message list, because the canonical message array fails the inbound
message-list type assertion and the synthetic `system` source was
consumed by the first pass. -/
theorem normalize_twice_empty_messages (c c' : Collab) (data : GoMap) :
    goGet (FormatRequest c' (FormatRequest c data).1).1 "messages" =
      some (.mapArr []) := by
  obtain ⟨ms, hm⟩ := formatRequest_messages c data
  have hs := formatRequest_system c data
  generalize hy : (FormatRequest c data).1 = y at hm hs
  simp only [FormatRequest, hm, hs]
  rw [featuresSteps_goGet _ _ _ (show ("messages" : String) ≠ "features" by decide)
        (show ("messages" : String) ≠ "enable_thinking" by decide)
        (show ("messages" : String) ≠ "thinking" by decide),
      goGet_goSet_ne (show ("stream" : String) ≠ "messages" by decide),
      goGet_goSet_self]
  simp [processMessages]

/-- C10: a message object whose `content` is neither a string nor a
`[]interface{}` list is silently omitted: the whole normalizer output is
unchanged when such a message is removed from the inbound list — no
error, and every other message is normalized exactly as before. -/
theorem bad_content_message_omitted (c : Collab) (data : GoMap)
    (pre post : List GoVal) (mm : GoMap)
    (hcs : (goGet mm "content").bind GoVal.asStr = none)
    (hca : (goGet mm "content").bind GoVal.asArr = none) :
    FormatRequest c (goSet data "messages" (.arr (pre ++ GoVal.obj mm :: post))) =
      FormatRequest c (goSet data "messages" (.arr (pre ++ post))) := by
  set d1 := goSet data "messages" (.arr (pre ++ GoVal.obj mm :: post)) with hd1
  set d2 := goSet data "messages" (.arr (pre ++ post)) with hd2
  have hrel : eqExceptFirst "messages" d1 d2 := eqExceptFirst_goSet_same _ _ _ _
  have hmodel : goGet d1 "model" = goGet d2 "model" :=
    eqExceptFirst_goGet_ne hrel (by decide)
  have hchat : goGet d1 "chat_id" = goGet d2 "chat_id" :=
    eqExceptFirst_goGet_ne hrel (by decide)
  have hsys : goGet d1 "system" = goGet d2 "system" :=
    eqExceptFirst_goGet_ne hrel (by decide)
  have hm1 : goGet d1 "messages" = some (.arr (pre ++ GoVal.obj mm :: post)) :=
    goGet_goSet_self _ _ _
  have hm2 : goGet d2 "messages" = some (.arr (pre ++ post)) :=
    goGet_goSet_self _ _ _
  have hpm : ∀ cid, processMessages c cid (pre ++ GoVal.obj mm :: post) =
      processMessages c cid (pre ++ post) := by
    intro cid
    rw [processMessages_append, processMessages_append,
      show processMessages c cid (GoVal.obj mm :: post) =
        processMessage c cid (.obj mm) ++ processMessages c cid post from rfl,
      processMessage_opaque_content c cid mm hcs hca]
    simp
  simp only [FormatRequest, hmodel, hchat, hsys]
  rcases hsv : goGet d2 "system" with _ | sysv
  · simp only [hm1, hm2, hpm]
    exact congrArg (fun m => (featuresSteps c.models _ (goSet m "stream" (.bool true)), none))
      (eqExceptFirst_goSet_eq (eqExceptFirst_goSet hrel "model" _) _)
  · have hq1 : goGet (goDelete d1 "system") "messages" =
        some (.arr (pre ++ GoVal.obj mm :: post)) := by
      rw [goGet_goDelete_ne (show ("system" : String) ≠ "messages" by decide), hm1]
    have hq2 : goGet (goDelete d2 "system") "messages" =
        some (.arr (pre ++ post)) := by
      rw [goGet_goDelete_ne (show ("system" : String) ≠ "messages" by decide), hm2]
    simp only [hq1, hq2, hpm]
    exact congrArg (fun m => (featuresSteps c.models _ (goSet m "stream" (.bool true)), none))
      (eqExceptFirst_goSet_eq
        (eqExceptFirst_goSet (eqExceptFirst_goDelete hrel "system") "model" _) _)

/-- C10 witness: the claim instantiated with a `content: null` message
dropped from a two-message list. -/
theorem bad_content_message_omitted_witness :
    FormatRequest collabDemo (goSet [] "messages"
        (.arr ([] ++ GoVal.obj [("role", GoVal.str "user"), ("content", GoVal.null)] ::
          [GoVal.obj [("role", GoVal.str "user"), ("content", GoVal.str "ok")]]))) =
      FormatRequest collabDemo (goSet [] "messages"
        (.arr ([] ++ [GoVal.obj [("role", GoVal.str "user"), ("content", GoVal.str "ok")]]))) :=
  bad_content_message_omitted collabDemo [] []
    [GoVal.obj [("role", GoVal.str "user"), ("content", GoVal.str "ok")]]
    [("role", GoVal.str "user"), ("content", GoVal.null)] rfl rfl

end Z2
